import Mathlib

/-!
# Verification of the sp-tweak-indexer core

A shallow embedding of the Rust sources of `sp-tweak-indexer`
(`tweak-indexer/src/chain.rs`, `tweak-indexer/src/main.rs`,
`tweak-indexer/src/database.rs`) together with proofs about the
embedded functions.

Modelling conventions:
* byte strings (scripts) are `List Nat`;
* transaction ids are `String` (the hex form the Rust code compares);
* the external collaborators — the `bitcoin-cli` RPC transport, the
  secp256k1 key-extraction and tweak-aggregation primitives of the
  `silentpayments` crate, and x-only-key validity — are abstracted as an
  environment of total functions (`Env`);
* a Rust panic inside a spawned tokio task (the `assert!` in
  `Chain::process_transaction`) is modelled as a distinguished outcome
  `TxOutcome.panicked`, which the dispatcher observes as a `JoinError`
  when awaiting the task;
* every call into the remote fallback `get_transaction` is recorded in a
  trace (the list of requested txids), so that "no remote lookup was
  issued" is a statement about the model.
-/

set_option autoImplicit false

namespace TweakIndexer

/-- Rust `chain.rs`: `struct PreviousScript { txid, vout, script }` (script is hex). -/
structure PreviousScript where
  txid : String
  vout : Nat
  script : String
deriving DecidableEq

/-- Rust `chain.rs`: `struct Tweak { tx_id, tweak }`. -/
structure Tweak where
  tx_id : String
  tweak : String
deriving DecidableEq

/-- Model of `bitcoin::OutPoint`: a `(txid, vout)` reference to a spent output. -/
structure OutPoint where
  txid : String
  vout : Nat
deriving DecidableEq

/-- Value of `bitcoin::OutPoint::null()`: all-zero txid and `vout = u32::MAX`. -/
def OutPoint.null : OutPoint :=
  ⟨"0000000000000000000000000000000000000000000000000000000000000000", 4294967295⟩

/-- Model of `bitcoin::OutPoint::is_null`. -/
def OutPoint.isNull (o : OutPoint) : Bool :=
  o.txid == OutPoint.null.txid && o.vout == OutPoint.null.vout

/-- Model of `bitcoin::TxIn`: previous output reference, unlocking script, witness stack. -/
structure TxIn where
  previous_output : OutPoint
  script_sig : List Nat
  wit : List (List Nat)
deriving DecidableEq

/-- Model of `bitcoin::TxOut` (only the script matters to the indexer). -/
structure TxOut where
  script_pubkey : List Nat
deriving DecidableEq

/-- Model of `bitcoin::Transaction`. The field `txid` models the value of
`compute_txid()` on the decoded transaction. -/
structure Transaction where
  txid : String
  input : List TxIn
  output : List TxOut
deriving DecidableEq

/-- Model of `bitcoin::Block`: header hash plus ordered transaction list. -/
structure Block where
  hash : String
  txdata : List Transaction
deriving DecidableEq

/-! ## Script classification (`rust-bitcoin` primitives used by `chain.rs`) -/

/-- Rust `WitnessVersion::try_from(opcode)`: `OP_PUSHBYTES_0` (0x00) gives
version 0, `OP_PUSHNUM_1 ..= OP_PUSHNUM_16` (0x51..0x60) give 1..16. -/
def witnessVersionOpcode (b : Nat) : Option Nat :=
  if b = 0 then some 0
  else if 0x51 ≤ b ∧ b ≤ 0x60 then some (b - 0x50)
  else none

/-- Rust `Script::witness_version`: the script length must lie in `4..=42`, the
first byte must be a version opcode, and the second byte must be a direct
push of `2..=40` bytes covering exactly the rest of the script. -/
def witness_version : List Nat → Option Nat
  | [] => none
  | [_] => none
  | b0 :: b1 :: rest =>
    let len := rest.length + 2
    if len < 4 ∨ 42 < len then none
    else
      match witnessVersionOpcode b0 with
      | none => none
      | some v => if 2 ≤ b1 ∧ b1 ≤ 40 ∧ b1 = len - 2 then some v else none

/-- Rust `chain.rs`: `Chain::is_segwit_gt_v1` — witness versions 0 and 1 are
accepted, any higher version is rejected, non-witness scripts pass. -/
def is_segwit_gt_v1 (script_pubkey : List Nat) : Bool :=
  match witness_version script_pubkey with
  | some 0 => false
  | some 1 => false
  | some _ => true
  | none => false

/-- Rust `Script::is_p2tr`: 34 bytes, `OP_PUSHNUM_1` then `OP_PUSHBYTES_32`. -/
def is_p2tr (s : List Nat) : Bool :=
  s.length == 34 &&
    (match s with
     | b0 :: b1 :: _ => b0 == 0x51 && b1 == 0x20
     | _ => false)

/-! ## Hex decoding (`ScriptBuf::from_hex` on cached scripts) -/

/-- Value of one hexadecimal digit. -/
def hexDigit (c : Char) : Option Nat :=
  if '0' ≤ c ∧ c ≤ '9' then some (c.toNat - 48)
  else if 'a' ≤ c ∧ c ≤ 'f' then some (c.toNat - 87)
  else if 'A' ≤ c ∧ c ≤ 'F' then some (c.toNat - 55)
  else none

/-- Decode a hex character list two digits at a time; odd length or a
non-hex character fails. -/
def hexDecodeChars : List Char → Option (List Nat)
  | [] => some []
  | [_] => none
  | h :: l :: rest =>
    match hexDigit h, hexDigit l, hexDecodeChars rest with
    | some hi, some lo, some tail => some ((hi * 16 + lo) :: tail)
    | _, _, _ => none

/-- Rust `ScriptBuf::from_hex`. -/
def hexDecode (s : String) : Option (List Nat) :=
  hexDecodeChars s.data

/-! ## The Chain context and its previous-output cache -/

/-- Rust `chain.rs`: `struct Chain { previous_scripts: Option<Vec<PreviousScript>> }`. -/
structure Chain where
  previous_scripts : Option (List PreviousScript)

/-- Rust `Chain::new`. -/
def Chain.new : Chain := ⟨none⟩

/-- Rust `Chain::set_previous_scripts`: wholesale replacement, once per block. -/
def Chain.set_previous_scripts (_c : Chain) (previous_scripts : List PreviousScript) : Chain :=
  ⟨some previous_scripts⟩

/-- Rust `Chain::find_previous_script`: first entry matching `(txid, vout)`. -/
def Chain.find_previous_script (c : Chain) (tx_id : String) (vout : Nat) :
    Option PreviousScript :=
  c.previous_scripts.bind fun l => l.find? fun ps => ps.txid == tx_id && ps.vout == vout

/-! ## The environment of external collaborators -/

/-- Result of `chain::get_transaction` followed by `deserialize_hex` —
either a decoded previous transaction or an error message (RPC failure or
undecodable hex). -/
inductive FetchResult where
  | ok (tx : Transaction)
  | err (msg : String)
deriving DecidableEq

/-- Result of `silentpayments::utils::receiving::get_pubkey_from_input`:
`Ok(Some pk)`, `Ok(None)`, or `Err(_)`. Public keys are abstracted as `Nat`. -/
inductive ExtractResult where
  | found (pk : Nat)
  | noKey
  | malformed
deriving DecidableEq

/-- Result of `silentpayments::utils::receiving::calculate_tweak_data`:
success, the distinguished `InvalidPublicKeySum` secp256k1 error, or any
other library error. -/
inductive TweakCalcResult where
  | ok (tweak : String)
  | invalidPublicKeySum
  | err (msg : String)
deriving DecidableEq

/-- The external collaborators of the pipeline, as total functions. -/
structure Env where
  get_transaction : String → FetchResult
  get_pubkey_from_input : List Nat → List (List Nat) → List Nat → ExtractResult
  calculate_tweak_data : List Nat → List (String × Nat) → TweakCalcResult
  xonly_ok : List Nat → Bool

/-! ## The per-transaction pipeline (`Chain::process_transaction`) -/

/-- Rust `enum ChainError` of `chain.rs`, plus `other` for boxed foreign errors
(RPC failures, hex/consensus decode failures, non-distinguished
elliptic-curve errors) that `?` propagates as `Box<dyn Error>`. -/
inductive ChainError where
  | txOutputNotFound
  | pubKeyFromInput
  | segWitVersionGE2
  | other (msg : String)
deriving DecidableEq

/-- Outcome of one transaction's pipeline run: `Ok(tweaks)`, `Err(e)`, or a
panic of the spawned task (the failed `assert!`). -/
inductive TxOutcome where
  | ok (tweaks : List Tweak)
  | err (e : ChainError)
  | panicked
deriving DecidableEq

/-- Outcome of the body of the input loop for a single input. The trace
component lists the txids requested through the remote fallback. -/
inductive StepResult where
  | cont (pk : Option Nat) (tr : List String)
  | stopOk (tr : List String)
  | stopErr (e : ChainError) (tr : List String)
  | stopPanic (tr : List String)
deriving DecidableEq

/-- Previous-script resolution for one input (`chain.rs` lines 170-182):
cache first, then the remote fallback with the txid `assert!` and the
output indexing. `Sum.inl` carries the resolved script and the fetch
trace; `Sum.inr` is an early exit of the whole loop. -/
def resolveScript (env : Env) (c : Chain) (input : TxIn) :
    (List Nat × List String) ⊕ StepResult :=
  match c.find_previous_script input.previous_output.txid input.previous_output.vout with
  | some prev_script =>
    match hexDecode prev_script.script with
    | some s => Sum.inl (s, [])
    | none => Sum.inr (.stopErr (.other "from_hex") [])
  | none =>
    match env.get_transaction input.previous_output.txid with
    | .err msg => Sum.inr (.stopErr (.other msg) [input.previous_output.txid])
    | .ok previous_tx =>
      if previous_tx.txid = input.previous_output.txid then
        match previous_tx.output.get? input.previous_output.vout with
        | some o => Sum.inl (o.script_pubkey, [input.previous_output.txid])
        | none => Sum.inr (.stopErr .txOutputNotFound [input.previous_output.txid])
      else
        Sum.inr (.stopPanic [input.previous_output.txid])

/-- One iteration of the input loop of `Chain::process_transaction`:
null-outpoint short circuit, script resolution, consensus filter, key
extraction. -/
def processInput (env : Env) (c : Chain) (input : TxIn) : StepResult :=
  if input.previous_output.isNull then .stopOk []
  else
    match resolveScript env c input with
    | Sum.inr r => r
    | Sum.inl (previous_script, tr) =>
      if is_segwit_gt_v1 previous_script then .stopErr .segWitVersionGE2 tr
      else
        match env.get_pubkey_from_input input.script_sig input.wit previous_script with
        | .found pk => .cont (some pk) tr
        | .noKey => .cont none tr
        | .malformed => .stopErr .pubKeyFromInput tr

/-- Result of the whole input loop: the collected keys, or an early exit. -/
inductive LoopOut where
  | done (keys : List Nat) (tr : List String)
  | earlyOk (tr : List String)
  | earlyErr (e : ChainError) (tr : List String)
  | earlyPanic (tr : List String)
deriving DecidableEq

/-- The input loop of `Chain::process_transaction`, accumulating extracted
public keys in order and the fetch trace. -/
def collectLoop (env : Env) (c : Chain) : List TxIn → List Nat → List String → LoopOut
  | [], keys, tr => .done keys tr
  | input :: rest, keys, tr =>
    match processInput env c input with
    | .cont (some pk) t => collectLoop env c rest (keys ++ [pk]) (tr ++ t)
    | .cont none t => collectLoop env c rest keys (tr ++ t)
    | .stopOk t => .earlyOk (tr ++ t)
    | .stopErr e t => .earlyErr e (tr ++ t)
    | .stopPanic t => .earlyPanic (tr ++ t)

/-- The outpoint list built by `Chain::process_transaction`
(lines 213-220): the declared inputs' `(txid, vout)` pairs in order. -/
def outpoints (tx : Transaction) : List (String × Nat) :=
  tx.input.map fun i => (i.previous_output.txid, i.previous_output.vout)

/-- Rust `Chain::process_transaction`: run the input loop, then aggregate via
`calculate_tweak_data`; `InvalidPublicKeySum` yields `Ok([])`, any other
aggregation error propagates; on success exactly one `Tweak` is pushed,
tagged with the transaction's computed id. The second component is the
trace of remote fallback lookups. -/
def process_transaction (env : Env) (c : Chain) (tx : Transaction) :
    TxOutcome × List String :=
  match collectLoop env c tx.input [] [] with
  | .earlyOk tr => (.ok [], tr)
  | .earlyErr e tr => (.err e, tr)
  | .earlyPanic tr => (.panicked, tr)
  | .done keys tr =>
    match env.calculate_tweak_data keys (outpoints tx) with
    | .invalidPublicKeySum => (.ok [], tr)
    | .err msg => (.err (.other msg), tr)
    | .ok tweak_str => (.ok [⟨tx.txid, tweak_str⟩], tr)

/-! ## The block dispatcher (`Chain::process_transactions`) -/

/-- The taproot pre-filter run inside each spawned task: some output is a
P2TR script whose 32-byte payload parses as a valid x-only key. -/
def hasTaprootOutput (env : Env) (tx : Transaction) : Bool :=
  tx.output.any fun o => is_p2tr o.script_pubkey && env.xonly_ok (o.script_pubkey.drop 2)

/-- The body of one spawned task: pre-filter, then the pipeline; an
ineligible transaction returns `Ok(vec![])` without touching the chain. -/
def processTxTask (env : Env) (c : Chain) (tx : Transaction) : TxOutcome × List String :=
  if hasTaprootOutput env tx then process_transaction env c tx else (.ok [], [])

/-- Awaiting one task in `Chain::process_transactions` (lines 286-296):
a non-empty `Ok` extends the accumulator, an `Err` is logged and dropped,
a panicked task (`JoinError`) is logged and dropped. -/
def awaitTask (acc : List Tweak) (r : TxOutcome × List String) : List Tweak :=
  match r with
  | (.ok tweaks, _) => if tweaks.isEmpty then acc else acc ++ tweaks
  | (.err _, _) => acc
  | (.panicked, _) => acc

/-- Rust `Chain::process_transactions` on a decoded block: spawn one task per
transaction, await them in submission order, extend the block list with
each non-empty `Ok` result, and log-and-drop `Err` results and panicked
tasks. -/
def process_transactions (env : Env) (c : Chain) (block : Block) : List Tweak :=
  let results := block.txdata.map fun tx => processTxTask env c tx
  results.foldl awaitTask []

/-- What one awaited task result contributes to the block list. -/
def taskResultTweaks : TxOutcome × List String → List Tweak
  | (.ok tweaks, _) => tweaks
  | (.err _, _) => []
  | (.panicked, _) => []

/-- What one task contributes to the block result: its tweaks when it
returned `Ok`, nothing when it failed or panicked. -/
def taskContribution (env : Env) (c : Chain) (tx : Transaction) : List Tweak :=
  taskResultTweaks (processTxTask env c tx)

/-! ## The orchestrator (`main.rs`) -/

/-- Rust `main.rs`: `auto_index`. The first argument models
`db.get_highest_block()` (0 when the blocks table is empty), the second
models the parsed result of `chain::get_block_count()`. Returns the
`(starting_block, last_block)` pair for the next continuous pass. -/
def auto_index (highest_block : Nat) (block_count : Nat) : Nat × Nat :=
  let starting_block := if highest_block > 0 then highest_block else 709632
  let last_block := if block_count < starting_block then starting_block else block_count
  (starting_block, last_block)

/-! ## The persistent store (`database.rs`) and the persistence step -/

/-- Rust `database.rs`: a row of the `blocks` table (`height` is the primary key). -/
structure DbBlock where
  height : Nat
  hash : String
  has_tweaks : Bool
deriving DecidableEq

/-- Rust `database.rs`: a row of the `tweaks` table (the autoincrement id is
implicit in the list position). -/
structure DbTweak where
  block_hash : String
  tx_id : String
  tweak : String
deriving DecidableEq

/-- The two-table store held behind `rusqlite`. -/
structure Db where
  blocks : List DbBlock
  tweaks : List DbTweak
deriving DecidableEq

/-- Rust `Database::insert_block`: a plain `INSERT` into a table whose primary
key is `height`, so a duplicate height is a constraint error and nothing
is inserted; otherwise the row is appended. -/
def Db.insert_block (db : Db) (b : DbBlock) : Except String Db :=
  if db.blocks.any fun x => x.height == b.height then
    .error "UNIQUE constraint failed: blocks.height"
  else
    .ok { db with blocks := db.blocks ++ [b] }

/-- Rust `Database::insert_tweak`: `tweaks` has an autoincrement primary key and
no enforced constraint (rusqlite leaves foreign keys off), so the insert
always succeeds. -/
def Db.insert_tweak (db : Db) (t : DbTweak) : Except String Db :=
  .ok { db with tweaks := db.tweaks ++ [t] }

/-- Rust `Database::get_highest_block`: `max(height)` over `blocks`, 0 when empty. -/
def Db.get_highest_block (db : Db) : Nat :=
  (db.blocks.map fun b => b.height).foldr max 0

/-- Apply a fallible insert whose `Result` the caller discards with
`let _ = ...`: on error the store is unchanged and execution continues. -/
def discardResult (db : Db) (r : Except String Db) : Db :=
  match r with
  | .ok db2 => db2
  | .error _ => db

/-- The persistence step of `index_blocks` (`main.rs` lines 175-194) for a
block the dispatcher processed successfully: insert every tweak record,
then the block record, every `Result` discarded, and advance the height
cursor. Returns the new store and the new cursor. -/
def persistBlockResult (db : Db) (current_block : Nat) (block_hash : String)
    (tweaks : List Tweak) : Db × Nat :=
  let has_tweaks := !tweaks.isEmpty
  let db2 := tweaks.foldl
    (fun d tw => discardResult d (d.insert_tweak ⟨block_hash, tw.tx_id, tw.tweak⟩)) db
  let db3 := discardResult db2 (db2.insert_block ⟨current_block, block_hash, has_tweaks⟩)
  (db3, current_block + 1)

/-! ## Concrete fixtures

Small concrete blocks, transactions and environments used to evaluate the
embedded functions at explicit inputs. -/

/-- A P2TR script: `OP_PUSHNUM_1 OP_PUSHBYTES_32` and 32 payload bytes. -/
def taprootScript : List Nat := 0x51 :: 0x20 :: List.replicate 32 0

/-- Fixture environment: every remote fetch returns a transaction whose
computed id is `"bb"`, key extraction finds no key, aggregation succeeds
with tweak `"74"`, and every 32-byte payload counts as a valid x-only key. -/
def envW : Env where
  get_transaction := fun _ => .ok ⟨"bb", [], []⟩
  get_pubkey_from_input := fun _ _ _ => .noKey
  calculate_tweak_data := fun _ _ => .ok "74"
  xonly_ok := fun _ => true

/-- Variant of `envW` with an aggregation that reports `InvalidPublicKeySum`. -/
def envI : Env where
  get_transaction := fun _ => .ok ⟨"bb", [], []⟩
  get_pubkey_from_input := fun _ _ _ => .noKey
  calculate_tweak_data := fun _ _ => .invalidPublicKeySum
  xonly_ok := fun _ => true

/-- Fixture cache: `("aa", 0)` maps to a witness-v2 script, `("cc", 0)` to
a one-byte legacy script. -/
def cW : Chain :=
  Chain.new.set_previous_scripts [⟨"aa", 0, "52020102"⟩, ⟨"cc", 0, "00"⟩]

/-- Input spending the cached witness-v2 output `("aa", 0)`. -/
def inV2 : TxIn := ⟨⟨"aa", 0⟩, [], []⟩

/-- Input spending the cached legacy output `("cc", 0)`. -/
def inLegacy : TxIn := ⟨⟨"cc", 0⟩, [], []⟩

/-- Input with the null/coinbase previous-output sentinel. -/
def inNull : TxIn := ⟨OutPoint.null, [], []⟩

/-- Input whose previous output `("dd", 0)` misses the cache; the fallback
fetch under `envW` returns a transaction with computed id `"bb" ≠ "dd"`. -/
def inMiss : TxIn := ⟨⟨"dd", 0⟩, [], []⟩

/-- Transaction whose first input spends a witness-v2 output and whose
second input is null. -/
def txC5 : Transaction := ⟨"t5", [inV2, inNull], [⟨taprootScript⟩]⟩

/-- Transaction whose only input triggers the fallback txid mismatch. -/
def txM : Transaction := ⟨"tM", [inMiss], [⟨taprootScript⟩]⟩

/-- Eligible transaction that completes and yields one tweak under `envW`. -/
def txG : Transaction := ⟨"tG", [inLegacy], [⟨taprootScript⟩]⟩

/-- Transaction with no taproot-style output. -/
def txPlain : Transaction := ⟨"tP", [inLegacy], [⟨[0x00]⟩]⟩

/-- Fixture store whose blocks table already holds height 7. -/
def db0 : Db := ⟨[⟨7, "h0", false⟩], []⟩

/-! ## Helper lemmas -/

/-- Awaiting one task appends exactly that task's contribution. -/
theorem awaitTask_eq_append (acc : List Tweak) (r : TxOutcome × List String) :
    awaitTask acc r = acc ++ taskResultTweaks r := by
  obtain ⟨o, tr⟩ := r
  cases o with
  | ok tweaks =>
    by_cases h : tweaks.isEmpty
    · have h0 : tweaks = [] := by simpa using h
      subst h0
      simp [awaitTask, taskResultTweaks]
    · simp [awaitTask, taskResultTweaks, h]
  | err e => simp [awaitTask, taskResultTweaks]
  | panicked => simp [awaitTask, taskResultTweaks]

/-- The dispatcher's accumulation fold equals appending each task's
contribution in submission order. -/
theorem dispatchFold_eq (rs : List (TxOutcome × List String)) (acc : List Tweak) :
    rs.foldl awaitTask acc = acc ++ rs.flatMap taskResultTweaks := by
  induction rs generalizing acc with
  | nil => simp
  | cons r rest ih =>
    rw [List.foldl_cons, List.flatMap_cons, awaitTask_eq_append, ih, List.append_assoc]

/-- The dispatcher result is the concatenation of per-transaction
contributions, in transaction order. -/
theorem process_transactions_eq_flatMap (env : Env) (c : Chain) (block : Block) :
    process_transactions env c block = block.txdata.flatMap (taskContribution env c) := by
  unfold process_transactions
  rw [dispatchFold_eq]
  simp only [List.nil_append, List.flatMap_map]
  rfl

/-- A prefix of inputs that all continue the loop only accumulates keys
and trace: the loop proceeds into the remaining inputs from some
accumulated state, independent of what those remaining inputs are. -/
theorem collectLoop_append_cont (env : Env) (c : Chain) (pre : List TxIn) :
    (∀ p ∈ pre, ∃ pk tr, processInput env c p = .cont pk tr) →
    ∀ keys tr, ∃ keys2 tr2,
      ∀ l, collectLoop env c (pre ++ l) keys tr = collectLoop env c l keys2 tr2 := by
  induction pre with
  | nil => exact fun _ keys tr => ⟨keys, tr, fun _ => rfl⟩
  | cons p rest ih =>
    intro h keys tr
    obtain ⟨pk, t, hp⟩ := h p (List.mem_cons_self p rest)
    have h2 : ∀ q ∈ rest, ∃ pk tr, processInput env c q = .cont pk tr :=
      fun q hq => h q (List.mem_cons_of_mem p hq)
    cases pk with
    | some k =>
      obtain ⟨keys2, tr2, hl⟩ := ih h2 (keys ++ [k]) (tr ++ t)
      refine ⟨keys2, tr2, fun l => ?_⟩
      show collectLoop env c (p :: (rest ++ l)) keys tr = _
      rw [collectLoop, hp]
      exact hl l
    | none =>
      obtain ⟨keys2, tr2, hl⟩ := ih h2 keys (tr ++ t)
      refine ⟨keys2, tr2, fun l => ?_⟩
      show collectLoop env c (p :: (rest ++ l)) keys tr = _
      rw [collectLoop, hp]
      exact hl l

/-- A task that did not return `Ok` contributes nothing. -/
theorem taskContribution_eq_nil_of_not_ok (env : Env) (c : Chain) (tx : Transaction)
    (h : ∀ tweaks, (processTxTask env c tx).1 ≠ .ok tweaks) :
    taskContribution env c tx = [] := by
  unfold taskContribution
  rcases hEq : processTxTask env c tx with ⟨o, tr⟩
  cases o with
  | ok tweaks => exact absurd (by rw [hEq]) (h tweaks)
  | err e => rfl
  | panicked => rfl

/-- Dropping a transaction whose task did not return `Ok` leaves the
block result unchanged. -/
theorem process_transactions_drop_failed (env : Env) (c : Chain) (h : String)
    (pre post : List Transaction) (tx : Transaction)
    (hfail : ∀ tweaks, (processTxTask env c tx).1 ≠ .ok tweaks) :
    process_transactions env c ⟨h, pre ++ tx :: post⟩ =
      process_transactions env c ⟨h, pre ++ post⟩ := by
  rw [process_transactions_eq_flatMap, process_transactions_eq_flatMap]
  simp only [List.flatMap_append, List.flatMap_cons,
    taskContribution_eq_nil_of_not_ok env c tx hfail, List.nil_append]

/-- The tweak-insertion fold of the persistence step: it never touches the
blocks table and appends one row per tweak, in order. -/
theorem tweakFold_spec (block_hash : String) (tws : List Tweak) :
    ∀ db : Db,
      tws.foldl
        (fun d tw => discardResult d (d.insert_tweak ⟨block_hash, tw.tx_id, tw.tweak⟩)) db
      = ⟨db.blocks, db.tweaks ++ tws.map fun tw => ⟨block_hash, tw.tx_id, tw.tweak⟩⟩ := by
  induction tws with
  | nil => intro db; simp
  | cons tw rest ih =>
    intro db
    rw [List.foldl_cons, List.map_cons]
    rw [ih]
    simp [discardResult, Db.insert_tweak]

/-- The pipeline on a loop that stopped at a null outpoint. -/
theorem process_transaction_of_earlyOk (env : Env) (c : Chain) (tx : Transaction)
    (tr : List String) (h : collectLoop env c tx.input [] [] = .earlyOk tr) :
    process_transaction env c tx = (.ok [], tr) := by
  unfold process_transaction
  rw [h]

/-- The pipeline on a loop that stopped with an error. -/
theorem process_transaction_of_earlyErr (env : Env) (c : Chain) (tx : Transaction)
    (e : ChainError) (tr : List String)
    (h : collectLoop env c tx.input [] [] = .earlyErr e tr) :
    process_transaction env c tx = (.err e, tr) := by
  unfold process_transaction
  rw [h]

/-- The pipeline on a loop whose task panicked. -/
theorem process_transaction_of_earlyPanic (env : Env) (c : Chain) (tx : Transaction)
    (tr : List String) (h : collectLoop env c tx.input [] [] = .earlyPanic tr) :
    process_transaction env c tx = (.panicked, tr) := by
  unfold process_transaction
  rw [h]

/-- The pipeline on a completed loop: the outcome is decided by
`calculate_tweak_data` on the collected keys and the outpoint list. -/
theorem process_transaction_of_done (env : Env) (c : Chain) (tx : Transaction)
    (keys : List Nat) (tr : List String)
    (h : collectLoop env c tx.input [] [] = .done keys tr) :
    process_transaction env c tx =
      (match env.calculate_tweak_data keys (outpoints tx) with
       | .invalidPublicKeySum => (.ok [], tr)
       | .err msg => (.err (.other msg), tr)
       | .ok tweak_str => (.ok [⟨tx.txid, tweak_str⟩], tr)) := by
  unfold process_transaction
  rw [h]

/-! ## Claim theorems -/

/-- C9: for every entry list and every `(txid, vout)`, the cache lookup
after `set_previous_scripts(entries)` returns an entry exactly when some
entry with that txid and vout is in the list, and any returned entry is
such an entry of the list. -/
theorem C9_cache_lookup (entries : List PreviousScript) (tx_id : String) (vout : Nat) :
    (∀ ps, (Chain.new.set_previous_scripts entries).find_previous_script tx_id vout =
        some ps → ps ∈ entries ∧ ps.txid = tx_id ∧ ps.vout = vout) ∧
    (((Chain.new.set_previous_scripts entries).find_previous_script tx_id vout).isSome ↔
      ∃ ps ∈ entries, ps.txid = tx_id ∧ ps.vout = vout) := by
  have hrw : (Chain.new.set_previous_scripts entries).find_previous_script tx_id vout =
      entries.find? fun ps => ps.txid == tx_id && ps.vout == vout := rfl
  constructor
  · intro ps hps
    rw [hrw] at hps
    have hmem := List.mem_of_find?_eq_some hps
    have hpred := List.find?_some hps
    simp only [Bool.and_eq_true, beq_iff_eq] at hpred
    exact ⟨hmem, hpred.1, hpred.2⟩
  · rw [hrw, List.find?_isSome]
    constructor
    · rintro ⟨ps, hmem, hpred⟩
      simp only [Bool.and_eq_true, beq_iff_eq] at hpred
      exact ⟨ps, hmem, hpred.1, hpred.2⟩
    · rintro ⟨ps, hmem, h1, h2⟩
      exact ⟨ps, hmem, by simp [h1, h2]⟩

/-- C9 witness: the lookup at a concrete entry list succeeds. -/
theorem C9_cache_lookup_witness :
    ((Chain.new.set_previous_scripts [⟨"aa", 0, "52020102"⟩]).find_previous_script
      "aa" 0).isSome :=
  (C9_cache_lookup [⟨"aa", 0, "52020102"⟩] "aa" 0).2.mpr
    ⟨⟨"aa", 0, "52020102"⟩, by simp, rfl, rfl⟩

/-- C2 counterexample: the recomputed range is not
`(max last-indexed 709632, tip)` and does not resume at `H+1`: a stored
height 5 gives start 5 (not `max 5 709632 = 709632`), a stored height
800000 gives start 800000 (not 800001), and when the tip is below the
start the end is clamped up to the start instead of being the tip. -/
theorem C2_counterexample :
    (auto_index 5 800000).1 ≠ max 5 709632 ∧
    (auto_index 800000 800100).1 ≠ 800000 + 1 ∧
    (auto_index 800000 5).2 ≠ 5 := by
  refine ⟨?_, ?_, ?_⟩ <;> decide

/-- C2 amended: each continuous pass recomputes the range as
`start = stored highest height if positive, else 709632` (the stored
height itself, not `H+1`, and with no clamping up to 709632 for small
positive stored heights), and `end = max(start, current tip)`. -/
theorem C2_auto_index_range (highest_block block_count : Nat) :
    auto_index highest_block block_count =
      (if 0 < highest_block then highest_block else 709632,
       max (if 0 < highest_block then highest_block else 709632) block_count) := by
  by_cases h : 0 < highest_block
  · simp only [auto_index, gt_iff_lt, if_pos h]
    congr 1
    split <;> omega
  · simp only [auto_index, gt_iff_lt, if_neg h]
    congr 1
    split <;> omega

/-- C10: the orchestrator discards every insertion `Result`; when the
block record insertion fails on a duplicate height (the blocks table's
primary key), the error is silently swallowed, the height cursor still
advances to `h+1`, and the tweak rows are persisted even though the block
row is not. -/
theorem C10_persistence_discards_errors (db : Db) (h : Nat) (hash : String)
    (tws : List Tweak) (hdup : (db.blocks.any fun x => x.height == h) = true) :
    (persistBlockResult db h hash tws).2 = h + 1 ∧
    (persistBlockResult db h hash tws).1.blocks = db.blocks ∧
    (persistBlockResult db h hash tws).1.tweaks =
      db.tweaks ++ tws.map (fun tw => ⟨hash, tw.tx_id, tw.tweak⟩) := by
  have hfail : (Db.insert_block
      ⟨db.blocks, db.tweaks ++ tws.map fun tw => ⟨hash, tw.tx_id, tw.tweak⟩⟩
      ⟨h, hash, !tws.isEmpty⟩) =
      .error "UNIQUE constraint failed: blocks.height" := by
    simp only [Db.insert_block]
    rw [if_pos hdup]
  simp only [persistBlockResult]
  rw [tweakFold_spec, hfail]
  simp [discardResult]

/-- C10 witness: inserting at the already-present height 7 keeps the
blocks table unchanged, persists the tweak row, and advances the cursor. -/
theorem C10_persistence_discards_errors_witness :
    (persistBlockResult db0 7 "h1" [⟨"tx1", "tw1"⟩]).2 = 7 + 1 ∧
    (persistBlockResult db0 7 "h1" [⟨"tx1", "tw1"⟩]).1.blocks = db0.blocks ∧
    (persistBlockResult db0 7 "h1" [⟨"tx1", "tw1"⟩]).1.tweaks =
      db0.tweaks ++ [⟨"h1", "tx1", "tw1"⟩] :=
  C10_persistence_discards_errors db0 7 "h1" [⟨"tx1", "tw1"⟩] rfl

/-- C7: the dispatcher's block result is the concatenation, in submission
(on-chain transaction) order, of each task's contribution; a transaction
whose pipeline errored or whose task panicked contributes nothing and
never aborts the block (the dispatcher always returns a plain list). -/
theorem C7_block_dispatcher_order (env : Env) (c : Chain) (block : Block) :
    process_transactions env c block =
      block.txdata.flatMap (fun tx => taskResultTweaks (processTxTask env c tx)) :=
  process_transactions_eq_flatMap env c block

/-- C4: a transaction is handed to the pipeline exactly when some output
is a 32-byte taproot-style output with a valid x-only payload; otherwise
the task yields an empty result at once with no remote lookup issued. -/
theorem C4_taproot_prefilter (env : Env) (c : Chain) (tx : Transaction) :
    (hasTaprootOutput env tx = true ↔
      ∃ o ∈ tx.output, is_p2tr o.script_pubkey = true ∧
        env.xonly_ok (o.script_pubkey.drop 2) = true) ∧
    (hasTaprootOutput env tx = false → processTxTask env c tx = (.ok [], [])) ∧
    (hasTaprootOutput env tx = true → processTxTask env c tx = process_transaction env c tx) := by
  refine ⟨?_, ?_, ?_⟩
  · unfold hasTaprootOutput
    rw [List.any_eq_true]
    constructor
    · rintro ⟨o, hmem, hpred⟩
      rw [Bool.and_eq_true] at hpred
      exact ⟨o, hmem, hpred.1, hpred.2⟩
    · rintro ⟨o, hmem, h1, h2⟩
      exact ⟨o, hmem, by rw [Bool.and_eq_true]; exact ⟨h1, h2⟩⟩
  · intro h; unfold processTxTask; rw [h]; rfl
  · intro h; unfold processTxTask; rw [h]; rfl

/-- C4 witness: a transaction with no taproot-style output yields the
empty result with an empty lookup trace. -/
theorem C4_taproot_prefilter_witness :
    processTxTask envW cW txPlain = (.ok [], []) :=
  (C4_taproot_prefilter envW cW txPlain).2.1 rfl

/-- C3: the Consensus Filter accepts witness v0/v1 and all non-witness
scripts, rejects every witness version 2 and above, and a rejected
resolved previous script aborts the whole transaction's pipeline run with
`SegWitVersionGE2`, regardless of which input position carried it. -/
theorem C3_consensus_filter :
    (∀ s : List Nat, (witness_version s = some 0 ∨ witness_version s = some 1 ∨
        witness_version s = none) → is_segwit_gt_v1 s = false) ∧
    (∀ (s : List Nat) (v : Nat), witness_version s = some v → 2 ≤ v →
      is_segwit_gt_v1 s = true) ∧
    (∀ (env : Env) (c : Chain) (txid : String) (outs : List TxOut)
        (pre : List TxIn) (input : TxIn) (rest : List TxIn)
        (s : List Nat) (t : List String),
      (∀ p ∈ pre, ∃ pk tr, processInput env c p = .cont pk tr) →
      input.previous_output.isNull = false →
      resolveScript env c input = Sum.inl (s, t) →
      is_segwit_gt_v1 s = true →
      (process_transaction env c ⟨txid, pre ++ input :: rest, outs⟩).1 =
        .err .segWitVersionGE2) := by
  refine ⟨?_, ?_, ?_⟩
  · intro s h
    rcases h with h | h | h <;> simp [is_segwit_gt_v1, h]
  · intro s v hv h2
    rw [is_segwit_gt_v1, hv]
    match v, h2 with
    | (n + 2), _ => rfl
  · intro env c txid outs pre input rest s t hpre hnull hres hsw
    obtain ⟨keys2, tr2, hl⟩ := collectLoop_append_cont env c pre hpre [] []
    have hstep : processInput env c input = .stopErr .segWitVersionGE2 t := by
      unfold processInput
      rw [hnull, hres]
      simp [hsw]
    have hfull : collectLoop env c (pre ++ input :: rest) [] [] =
        .earlyErr .segWitVersionGE2 (tr2 ++ t) := by
      rw [hl (input :: rest)]
      simp only [collectLoop]
      rw [hstep]
    rw [process_transaction_of_earlyErr env c ⟨txid, pre ++ input :: rest, outs⟩
      .segWitVersionGE2 (tr2 ++ t) hfull]

/-- C3 witness: a cache-resolved witness-v2 script on the only input
aborts the pipeline with `SegWitVersionGE2`. -/
theorem C3_consensus_filter_witness :
    (process_transaction envW cW ⟨"t3", [inV2], []⟩).1 = .err .segWitVersionGE2 :=
  C3_consensus_filter.2.2 envW cW "t3" [] [] inV2 [] [0x52, 0x02, 0x01, 0x02] []
    (fun p hp => absurd hp (List.not_mem_nil p)) rfl rfl rfl

/-- C5 counterexample: a transaction whose second input is null but whose
first input spends a witness-v2 output returns `SegWitVersionGE2`, not an
empty tweak list — the unconditional claim fails when an earlier input
short-circuits first. -/
theorem C5_counterexample :
    (∃ i ∈ txC5.input, i.previous_output.isNull = true) ∧
    (process_transaction envW cW txC5).1 = .err .segWitVersionGE2 ∧
    (.err .segWitVersionGE2 : TxOutcome) ≠ .ok [] := by
  refine ⟨⟨inNull, ?_, rfl⟩, rfl, by decide⟩
  simp [txC5]

/-- C5 amended: if every input before the null input is processed without
short-circuiting (it resolves, passes the filter, and key extraction does
not error), then reaching the null input makes the pipeline return an
empty tweak list as a success, and no input after the null one affects the
result. -/
theorem C5_null_input_short_circuit (env : Env) (c : Chain) (txid : String)
    (outs : List TxOut) (pre : List TxIn) (nullIn : TxIn)
    (hpre : ∀ p ∈ pre, ∃ pk tr, processInput env c p = .cont pk tr)
    (hnull : nullIn.previous_output.isNull = true) :
    ∃ tr, ∀ rest : List TxIn,
      process_transaction env c ⟨txid, pre ++ nullIn :: rest, outs⟩ = (.ok [], tr) := by
  obtain ⟨keys2, tr2, hl⟩ := collectLoop_append_cont env c pre hpre [] []
  have hstep : processInput env c nullIn = .stopOk [] := by
    unfold processInput
    simp [hnull]
  refine ⟨tr2 ++ [], fun rest => ?_⟩
  apply process_transaction_of_earlyOk
  show collectLoop env c (pre ++ nullIn :: rest) [] [] = _
  rw [hl (nullIn :: rest)]
  simp only [collectLoop]
  rw [hstep]

/-- C5 witness: a transaction whose only input is null yields `Ok([])`. -/
theorem C5_null_input_short_circuit_witness :
    ∃ tr, process_transaction envW cW ⟨"cb", [inNull], []⟩ = (.ok [], tr) := by
  obtain ⟨tr, h⟩ := C5_null_input_short_circuit envW cW "cb" [] [] inNull
    (fun p hp => absurd hp (List.not_mem_nil p)) rfl
  exact ⟨tr, h []⟩

/-- C6: when the input loop completes, an `InvalidPublicKeySum` from the
tweak aggregation yields an empty success, any other aggregation error is
propagated as a failure of that transaction, and such a failed transaction
is dropped from the block result without affecting its siblings. -/
theorem C6_aggregation_failures (env : Env) (c : Chain) (tx : Transaction)
    (keys : List Nat) (tr : List String)
    (hloop : collectLoop env c tx.input [] [] = .done keys tr) :
    (env.calculate_tweak_data keys (outpoints tx) = .invalidPublicKeySum →
      process_transaction env c tx = (.ok [], tr)) ∧
    (∀ msg, env.calculate_tweak_data keys (outpoints tx) = .err msg →
      process_transaction env c tx = (.err (.other msg), tr)) ∧
    (∀ (h : String) (pre post : List Transaction) (e : ChainError),
      (processTxTask env c tx).1 = .err e →
      process_transactions env c ⟨h, pre ++ tx :: post⟩ =
        process_transactions env c ⟨h, pre ++ post⟩) := by
  refine ⟨?_, ?_, ?_⟩
  · intro hagg
    rw [process_transaction_of_done env c tx keys tr hloop, hagg]
  · intro msg hagg
    rw [process_transaction_of_done env c tx keys tr hloop, hagg]
  · intro h pre post e herr
    apply process_transactions_drop_failed
    intro tweaks hcon
    rw [herr] at hcon
    exact TxOutcome.noConfusion hcon

/-- C6 witness: an `InvalidPublicKeySum` aggregation gives `Ok([])`. -/
theorem C6_aggregation_failures_witness :
    process_transaction envI cW txG = (.ok [], []) :=
  (C6_aggregation_failures envI cW txG [] [] rfl).1 rfl

/-- C8: a completed pipeline run emits at most one tweak, every emitted
tweak carries the transaction's computed id, and a non-empty result can
only arise from an aggregation call on exactly the transaction's declared
inputs' `(txid, vout)` pairs in their on-chain order. -/
theorem C8_outpoints_and_single_tweak (env : Env) (c : Chain) (tx : Transaction)
    (tws : List Tweak) (tr : List String)
    (hok : process_transaction env c tx = (.ok tws, tr)) :
    tws.length ≤ 1 ∧
    (∀ t ∈ tws, t.tx_id = tx.txid) ∧
    (tws ≠ [] → ∃ keys tweak_str,
      collectLoop env c tx.input [] [] = .done keys tr ∧
      env.calculate_tweak_data keys
        (tx.input.map fun i => (i.previous_output.txid, i.previous_output.vout)) =
        .ok tweak_str ∧
      tws = [⟨tx.txid, tweak_str⟩]) := by
  cases hloop : collectLoop env c tx.input [] [] with
  | earlyOk tr0 =>
    rw [process_transaction_of_earlyOk env c tx tr0 hloop, Prod.mk.injEq] at hok
    obtain ⟨h1, h2⟩ := hok
    injection h1 with h3
    subst h3
    exact ⟨by simp, by simp, fun hne => absurd rfl hne⟩
  | earlyErr e tr0 =>
    rw [process_transaction_of_earlyErr env c tx e tr0 hloop, Prod.mk.injEq] at hok
    exact absurd hok.1 (by intro hcon; exact TxOutcome.noConfusion hcon)
  | earlyPanic tr0 =>
    rw [process_transaction_of_earlyPanic env c tx tr0 hloop, Prod.mk.injEq] at hok
    exact absurd hok.1 (by intro hcon; exact TxOutcome.noConfusion hcon)
  | done keys tr0 =>
    rw [process_transaction_of_done env c tx keys tr0 hloop] at hok
    cases hagg : env.calculate_tweak_data keys (outpoints tx) with
    | ok tweak_str =>
      rw [hagg, Prod.mk.injEq] at hok
      obtain ⟨h1, h2⟩ := hok
      injection h1 with h3
      subst h3
      subst h2
      refine ⟨by simp, by simp, fun _ => ⟨keys, tweak_str, rfl, hagg, rfl⟩⟩
    | invalidPublicKeySum =>
      rw [hagg, Prod.mk.injEq] at hok
      obtain ⟨h1, h2⟩ := hok
      injection h1 with h3
      subst h3
      exact ⟨by simp, by simp, fun hne => absurd rfl hne⟩
    | err msg =>
      rw [hagg, Prod.mk.injEq] at hok
      exact absurd hok.1 (by intro hcon; exact TxOutcome.noConfusion hcon)

/-- C8 witness: a concrete completed run emits at most one tweak. -/
theorem C8_outpoints_and_single_tweak_witness :
    ([⟨"tG", "74"⟩] : List Tweak).length ≤ 1 :=
  (C8_outpoints_and_single_tweak envW cW txG [⟨"tG", "74"⟩] [] rfl).1

/-- C1 (code-bug evaluation at the failing input): the cache-missed input
of `txM` fetches a previous transaction whose computed id "bb" differs
from the expected "dd"; the failed `assert!` panics only the spawned task,
and the dispatcher completes the block normally — the sibling transaction
still contributes its tweak and the block result is an ordinary success.
The mismatch is therefore handled as a recoverable per-transaction
failure, not as a process-wide abort. -/
theorem C1_txid_mismatch_is_task_local :
    (process_transaction envW cW txM).1 = .panicked ∧
    process_transactions envW cW ⟨"bh", [txM, txG]⟩ = [⟨"tG", "74"⟩] :=
  ⟨rfl, rfl⟩

end TweakIndexer
